import Mathlib

/-!
Shallow embedding of the real-time collaboration core of the Ai-task-hub
repository: the client hooks `useRealtimeCursors` / `useRealtimeBoard`
(src/components/canvas/realtime-diagnostics.tsx), the WebSocket mutation
relay (src/ws-server/index.js) and the socket.io presence server
(src/unnamed/part_003), together with proofs of the spec's claims about
them.

Machine-level conventions of the embedding:
* JavaScript objects used as string-keyed maps are embedded as association
  lists `List (String × α)`; the JS assignment `obj[k] = v` keeps an existing
  key in place and appends a fresh key, which is what `upsert` does.
* `JSON.parse` is a platform function, not repository code; its outcome on a
  wire frame is embedded as `Option msg`: `none` is a payload that fails to
  parse (the handler's `catch` path), `some m` a successfully decoded message.
* WebSocket `readyState` is the numeric code of the platform API:
  0 CONNECTING, 1 OPEN, 2 CLOSING, 3 CLOSED.
-/

/-- A canvas element snapshot. The handlers under verification access only
its `id`; every other field of the JS object is abstracted into `payload`. -/
structure Element where
  id : String
  payload : String
deriving DecidableEq, Repr

/-- A decoded `element_update` wire message, as read by `useRealtimeBoard`'s
`ws.onmessage` handler: `{ type, userId, boardId, action, element }`.
`action` stays a raw string exactly as in the JS, where it is compared
against the literals "update" / "create" / "delete". -/
structure ElementUpdateMsg where
  type : String
  userId : String
  boardId : String
  action : String
  element : Element
deriving DecidableEq, Repr

/-- The Local Reconciler: the `setElements` updater inside `useRealtimeBoard`
(realtime-diagnostics.tsx lines 892-901), translated branch for branch:
`update` maps over the list replacing the element with matching id wholesale,
`create` appends `[...prev, data.element]` unconditionally,
`delete` filters out the matching id, and any other action returns `prev`. -/
def applyElementUpdate (action : String) (element : Element) (prev : List Element) :
    List Element :=
  if action = "update" then
    prev.map fun el => if el.id = element.id then element else el
  else if action = "create" then
    prev ++ [element]
  else if action = "delete" then
    prev.filter fun el => el.id != element.id
  else
    prev

/-- `useRealtimeBoard`'s `ws.onmessage` handler (lines 888-904): parse the
frame (`none` = JSON.parse threw, swallowed by the `catch`), then apply the
Local Reconciler only when `type` is "element_update", the message's boardId
equals the hook's and the sender is not the local user. -/
def boardOnMessage (boardId userId : String) (frame : Option ElementUpdateMsg)
    (prev : List Element) : List Element :=
  match frame with
  | none => prev
  | some data =>
    if data.type = "element_update" ∧ data.boardId = boardId ∧ data.userId ≠ userId then
      applyElementUpdate data.action data.element prev
    else
      prev

/-- The ids of an element collection. -/
def elementIds (l : List Element) : List String := l.map Element.id

/-- Concrete element used in counterexamples and witnesses. -/
def elA : Element := ⟨"e1", "a"⟩

/-- A second snapshot carrying the same id as `elA`. -/
def elA' : Element := ⟨"e1", "b"⟩

/-- A snapshot with a different id. -/
def elB : Element := ⟨"e2", "c"⟩

theorem applyElementUpdate_update_eq (e : Element) (prev : List Element) :
    applyElementUpdate "update" e prev = prev.map fun el => if el.id = e.id then e else el := by
  simp [applyElementUpdate]

theorem applyElementUpdate_create_eq (e : Element) (prev : List Element) :
    applyElementUpdate "create" e prev = prev ++ [e] := by
  simp [applyElementUpdate]

theorem applyElementUpdate_delete_eq (e : Element) (prev : List Element) :
    applyElementUpdate "delete" e prev = prev.filter fun el => el.id != e.id := by
  simp [applyElementUpdate]

theorem elementIds_applyElementUpdate_update (e : Element) (prev : List Element) :
    elementIds (applyElementUpdate "update" e prev) = elementIds prev := by
  rw [applyElementUpdate_update_eq]
  simp only [elementIds, List.map_map]
  refine List.map_congr_left ?_
  intro el _
  by_cases h : el.id = e.id
  · simp [Function.comp, h]
  · simp [Function.comp, h]

theorem elementIds_applyElementUpdate_delete (e : Element) (prev : List Element) :
    (elementIds (applyElementUpdate "delete" e prev)).Sublist (elementIds prev) := by
  rw [applyElementUpdate_delete_eq]
  exact (List.filter_sublist prev).map Element.id

theorem applyElementUpdate_other_eq (action : String) (e : Element) (prev : List Element)
    (h1 : action ≠ "update") (h2 : action ≠ "create") (h3 : action ≠ "delete") :
    applyElementUpdate action e prev = prev := by
  simp [applyElementUpdate, h1, h2, h3]

/-- C1 counterexample: the `create` branch performs no id-presence check.
Receiving a `create` for an id already in the collection appends a second
element with that id, so the collection ends with duplicate ids. -/
theorem createDuplicatesExistingId :
    applyElementUpdate "create" elA' [elA] = [elA, elA'] ∧
      ¬ (elementIds (applyElementUpdate "create" elA' [elA])).Nodup := by
  constructor
  · rfl
  · decide

/-- C1 (amended): the Local Reconciler preserves the no-duplicate-ids
invariant on `update` and `delete` events and on `create` events whose id is
not already present; the `create` branch itself never checks for presence,
so only that freshness side condition protects the invariant. -/
theorem reconcilerPreservesNodupIds (action : String) (e : Element) (prev : List Element)
    (hprev : (elementIds prev).Nodup)
    (hfresh : action = "create" → e.id ∉ elementIds prev) :
    (elementIds (applyElementUpdate action e prev)).Nodup := by
  by_cases hu : action = "update"
  · rw [hu, elementIds_applyElementUpdate_update]
    exact hprev
  · by_cases hc : action = "create"
    · subst hc
      rw [applyElementUpdate_create_eq]
      have hids : elementIds (prev ++ [e]) = elementIds prev ++ [e.id] := by
        simp [elementIds]
      rw [hids]
      have := hfresh rfl
      simp [List.nodup_append, hprev, this]
    · by_cases hd : action = "delete"
      · rw [hd]
        exact (elementIds_applyElementUpdate_delete e prev).nodup hprev
      · rw [applyElementUpdate_other_eq action e prev hu hc hd]
        exact hprev

/-- Witness for C1 (amended) at a concrete input: a `create` of the fresh id
"e2" onto `[elA]` keeps the ids duplicate-free. -/
theorem reconcilerPreservesNodupIds_witness :
    (elementIds (applyElementUpdate "create" elB [elA])).Nodup :=
  reconcilerPreservesNodupIds "create" elB [elA] (by decide) (fun _ => by decide)

/-- C4 counterexample: applying the same `create` MutationEvent twice appends
the snapshot twice, so the result differs from a single application
(idempotence fails for `create`). -/
theorem createNotIdempotent :
    applyElementUpdate "create" elA (applyElementUpdate "create" elA []) ≠
      applyElementUpdate "create" elA [] := by
  decide

/-- C4 (amended): applying the same MutationEvent twice yields the same
collection as applying it once for `update` and `delete` events (and for
unrecognized actions, which are no-ops); for `create` the second application
appends a second copy of the snapshot. -/
theorem reconcilerIdempotentNonCreate (action : String) (e : Element) (prev : List Element)
    (h : action ≠ "create") :
    applyElementUpdate action e (applyElementUpdate action e prev) =
      applyElementUpdate action e prev := by
  by_cases hu : action = "update"
  · subst hu
    rw [applyElementUpdate_update_eq, applyElementUpdate_update_eq, List.map_map]
    refine List.map_congr_left ?_
    intro el _
    by_cases hid : el.id = e.id
    · simp [Function.comp, hid]
    · simp [Function.comp, hid]
  · by_cases hd : action = "delete"
    · subst hd
      rw [applyElementUpdate_delete_eq, applyElementUpdate_delete_eq, List.filter_filter]
      simp
    · rw [applyElementUpdate_other_eq action e prev hu h hd,
        applyElementUpdate_other_eq action e prev hu h hd]

/-- Witness for C4 (amended) at a concrete input: deleting id "e1" from
`[elA, elB]` twice equals deleting it once. -/
theorem reconcilerIdempotentNonCreate_witness :
    applyElementUpdate "delete" elA (applyElementUpdate "delete" elA [elA, elB]) =
      applyElementUpdate "delete" elA [elA, elB] :=
  reconcilerIdempotentNonCreate "delete" elA [elA, elB] (by decide)

/-- C10: the `ws.onmessage` handler of `useRealtimeBoard` touches the element
collection only when the message's boardId equals the hook's boardId and the
message's userId differs from the local userId; a message for another board,
or one echoing the local user's own id, leaves the collection unchanged. -/
theorem boardOnMessageFiltersForeign (boardId userId : String) (msg : ElementUpdateMsg)
    (prev : List Element) (h : msg.boardId ≠ boardId ∨ msg.userId = userId) :
    boardOnMessage boardId userId (some msg) prev = prev := by
  unfold boardOnMessage
  have hcond : ¬ (msg.type = "element_update" ∧ msg.boardId = boardId ∧ msg.userId ≠ userId) := by
    rintro ⟨-, hb, hu⟩
    rcases h with h | h
    · exact h hb
    · exact hu h
  simp [hcond]

/-- Witness for C10 at a concrete input: a message for board "Y" received by
the hook for board "X" leaves the collection unchanged. -/
theorem boardOnMessageFiltersForeign_witness :
    boardOnMessage "X" "u1" (some ⟨"element_update", "u2", "Y", "create", elB⟩) [elA] = [elA] :=
  boardOnMessageFiltersForeign "X" "u1" ⟨"element_update", "u2", "Y", "create", elB⟩ [elA]
    (Or.inl (by decide))

/-! ## The Mutation Relay (src/ws-server/index.js)

The ws-server keeps no state at all: no room membership, no board map. Its
whole `message` handler is: parse the frame, and on success send the
re-serialized message to every client in `wss.clients` other than the sender
whose `readyState` is OPEN. -/

/-- A socket connected to the ws relay. `id` stands for the object identity
used by the JS comparison `client !== ws` (distinct connections are distinct
objects, hence distinct ids). `viewingBoard` is the board the client's page
is looking at; the relay server itself stores no such information and the
relay handler never reads this field — it exists so that claims about board
membership can be stated. -/
structure RelayClient where
  id : Nat
  readyState : Nat
  viewingBoard : String
deriving DecidableEq, Repr

/-- The relay's `message` handler (ws-server/index.js lines 7-19): on a parse
failure the handler returns having sent nothing; on success it sends the
message to every other client in the OPEN ready state, in client-list order.
The result is the list of (recipient id, delivered message) sends. -/
def relayIncoming (clients : List RelayClient) (sender : Nat)
    (frame : Option ElementUpdateMsg) : List (Nat × ElementUpdateMsg) :=
  match frame with
  | none => []
  | some msg =>
    (clients.filter fun c => c.id != sender && c.readyState == 1).map fun c => (c.id, msg)

/-- A sample relayed mutation message for board "X". -/
def msgX : ElementUpdateMsg := ⟨"element_update", "u1", "X", "create", elA⟩

/-- The sending client, viewing board "X". -/
def clientA : RelayClient := ⟨0, 1, "X"⟩

/-- A connected open client viewing a different board "Y". -/
def clientB : RelayClient := ⟨1, 1, "Y"⟩

/-- C3 counterexample: the relay delivers a board-"X" mutation to `clientB`,
a connected socket that is not viewing board "X" — the server does no board
scoping at all, so "no socket not joined to that board receives the message"
fails. -/
theorem relayDeliversAcrossBoards :
    relayIncoming [clientA, clientB] 0 (some msgX) = [(1, msgX)] ∧
      clientB.viewingBoard ≠ msgX.boardId := by
  constructor
  · rfl
  · decide

/-- C3 (amended): the relay rebroadcasts an inbound mutation to exactly the
other connected sockets in the OPEN ready state, regardless of any board:
`(rid, m)` is delivered iff `m` is the parsed message and some client other
than the sender has id `rid` and readyState OPEN. Board scoping happens only
client-side, in the receivers' boardId filter. -/
theorem relayBroadcastSet (clients : List RelayClient) (sender : Nat)
    (msg : ElementUpdateMsg) (rid : Nat) (m : ElementUpdateMsg) :
    (rid, m) ∈ relayIncoming clients sender (some msg) ↔
      m = msg ∧ ∃ c ∈ clients, c.id = rid ∧ c.readyState = 1 ∧ rid ≠ sender := by
  simp only [relayIncoming, List.mem_map, List.mem_filter, Bool.and_eq_true, bne_iff_ne,
    beq_iff_eq, ne_eq]
  constructor
  · rintro ⟨c, ⟨hc, hne, hrs⟩, heq⟩
    obtain ⟨hid, hm⟩ := Prod.mk.injEq .. ▸ heq
    refine ⟨hm.symm, c, hc, hid, hrs, ?_⟩
    rw [← hid]
    exact hne
  · rintro ⟨hm, c, hc, hid, hrs, hne⟩
    exact ⟨c, ⟨hc, by rw [hid]; exact hne, hrs⟩, by rw [hid, hm]⟩

/-- C6: self-echo suppression — no send produced by the relay handler is
addressed to the sender's own id, for any client set and any frame. -/
theorem relayNeverEchoesSender (clients : List RelayClient) (sender : Nat)
    (frame : Option ElementUpdateMsg) (rid : Nat) (m : ElementUpdateMsg)
    (h : (rid, m) ∈ relayIncoming clients sender frame) : rid ≠ sender := by
  match frame with
  | none => simp [relayIncoming] at h
  | some msg =>
    simp only [relayIncoming, List.mem_map, List.mem_filter, Bool.and_eq_true, bne_iff_ne,
      beq_iff_eq] at h
    obtain ⟨c, ⟨-, hne, -⟩, heq⟩ := h
    obtain ⟨hid, -⟩ := Prod.mk.injEq .. ▸ heq
    rw [← hid]
    exact hne

/-- Witness for C6 at a concrete input: among `[clientA, clientB]` with
sender id 0, the delivered send goes to id 1, which differs from 0. -/
theorem relayNeverEchoesSender_witness : (1 : Nat) ≠ 0 :=
  relayNeverEchoesSender [clientA, clientB] 0 (some msgX) 1 msgX (by decide)

/-! ## The cursor throttle (realtime-diagnostics.tsx lines 754-772, 840-853)

`throttle(func, limit)` keeps two closure variables, `inThrottle` and
`lastArgs`. A call with `inThrottle` false invokes `func` immediately with
the call's arguments (leading edge), sets `inThrottle` and schedules one
`setTimeout(limit)`; a call with `inThrottle` true only overwrites
`lastArgs`. When the timeout fires it clears `inThrottle` and, if `lastArgs`
is non-empty, invokes `func` with it (trailing edge) and clears `lastArgs`.
The wrapped `func` here is the `sendCursor` body, which sends the sample on
the socket only when `readyState === 1`. -/

/-- The closure state of one `throttle(func, 16)` instance: `inThrottle` and
`lastArgs` (`none` embeds the empty JS array `[]`, which fails the
`lastArgs.length` test). -/
structure ThrottleState where
  inThrottle : Bool
  lastArgs : Option (Int × Int)
deriving DecidableEq, Repr

/-- Initial closure state: `inThrottle = false`, `lastArgs = []`. -/
def idleThrottle : ThrottleState := ⟨false, none⟩

/-- The `sendCursor` body (lines 840-853): send the sample iff the socket's
readyState is OPEN (1); otherwise send nothing. Returns the sends emitted. -/
def sendIfOpen (readyState : Nat) (args : Int × Int) : List (Int × Int) :=
  if readyState = 1 then [args] else []

/-- One invocation of the throttled function: leading-edge invoke when idle
(scheduling the window timer), otherwise record the arguments for the
trailing edge. Returns the new closure state and the sends emitted. -/
def throttleCall (readyState : Nat) (s : ThrottleState) (args : Int × Int) :
    ThrottleState × List (Int × Int) :=
  if s.inThrottle then ({ s with lastArgs := some args }, [])
  else ({ inThrottle := true, lastArgs := s.lastArgs }, sendIfOpen readyState args)

/-- The `setTimeout` callback at the end of the window: clear `inThrottle`
and, when `lastArgs` is non-empty, invoke `func` with it and clear it. -/
def throttleTimerFire (readyState : Nat) (s : ThrottleState) :
    ThrottleState × List (Int × Int) :=
  match s.lastArgs with
  | some a => (⟨false, none⟩, sendIfOpen readyState a)
  | none => (⟨false, none⟩, [])

/-- A burst of calls folded through the closure, collecting all sends. -/
def throttleCalls (readyState : Nat) : ThrottleState → List (Int × Int) →
    ThrottleState × List (Int × Int)
  | s, [] => (s, [])
  | s, a :: rest =>
    let r1 := throttleCall readyState s a
    let r2 := throttleCalls readyState r1.fst rest
    (r2.fst, r1.snd ++ r2.snd)

/-- All socket sends produced by one throttle window: the burst of calls
starting from the idle state, followed by the window's timer firing. -/
def throttleWindowSends (readyState : Nat) (calls : List (Int × Int)) :
    List (Int × Int) :=
  let r := throttleCalls readyState idleThrottle calls
  r.snd ++ (throttleTimerFire readyState r.fst).snd

/-- C2 counterexample: two calls in one window over an open socket produce
TWO sends — the leading edge with the FIRST call's arguments and the
trailing edge with the last call's — not exactly one send. -/
theorem throttleWindowTwoSends :
    throttleWindowSends 1 [(0, 0), (5, 7)] = [(0, 0), (5, 7)] ∧
      (throttleWindowSends 1 [(0, 0), (5, 7)]).length ≠ 1 := by
  constructor
  · rfl
  · decide

theorem throttleCalls_inThrottle (readyState : Nat) (la : Option (Int × Int))
    (rest : List (Int × Int)) :
    throttleCalls readyState ⟨true, la⟩ rest =
      (⟨true, match rest.getLast? with | none => la | some x => some x⟩, []) := by
  induction rest generalizing la with
  | nil => rfl
  | cons a t ih =>
    show throttleCalls readyState ⟨true, some a⟩ t = _
    rw [ih (some a)]
    match t with
    | [] => rfl
    | b :: t' =>
      simp only [List.getLast?_cons_cons]
      cases h : (b :: t').getLast? with
      | none => exact absurd (List.getLast?_eq_none_iff.mp h) (List.cons_ne_nil b t')
      | some x => rfl

/-- C2 (amended): over an open socket, a window of `N ≥ 1` calls produces the
leading-edge send carrying the FIRST call's arguments and, when `N ≥ 2`, one
trailing send carrying the LAST call's arguments — so at most two sends per
window, never exactly one for `N ≥ 2`, but the final position is never
dropped. -/
theorem throttleWindowLeadingTrailing (c : Int × Int) (rest : List (Int × Int)) :
    throttleWindowSends 1 (c :: rest) =
      c :: (match rest.getLast? with | none => [] | some l => [l]) := by
  show (let r := throttleCalls 1 idleThrottle (c :: rest)
    r.snd ++ (throttleTimerFire 1 r.fst).snd) = _
  have h1 : throttleCalls 1 idleThrottle (c :: rest) =
      (⟨true, match rest.getLast? with | none => none | some x => some x⟩, [c]) := by
    show (let r1 := throttleCall 1 idleThrottle c
      let r2 := throttleCalls 1 r1.fst rest
      (r2.fst, r1.snd ++ r2.snd)) = _
    have hc : throttleCall 1 idleThrottle c = (⟨true, none⟩, [c]) := rfl
    simp only [hc, throttleCalls_inThrottle, List.append_nil]
  rw [h1]
  match hr : rest.getLast? with
  | none => rfl
  | some l => rfl

/-! ## Session teardown (realtime-diagnostics.tsx lines 817-820)

The `useRealtimeCursors` effect cleanup is exactly `() => { ws.close(); }`.
Nothing in `throttle` or in the hook keeps a handle on the `setTimeout`
scheduled inside the throttle closure, and no `clearTimeout` for it exists
anywhere in the hook, so a pending window timer stays scheduled across
unmount; when it later fires, the wrapped `sendCursor` body finds
`readyState !== 1` and sends nothing. -/

/-- The observable state of one `useRealtimeCursors` session: the socket's
readyState, the throttle closure state, and whether a window `setTimeout`
scheduled by the throttle is still pending in the event loop. -/
structure CursorsHookState where
  wsReadyState : Nat
  throttle : ThrottleState
  timerPending : Bool
deriving DecidableEq, Repr

/-- The effect cleanup run on unmount: `ws.close()` moves the socket's
readyState to CLOSING (2). No `clearTimeout` is issued — the source keeps no
handle to the throttle's timer — so `timerPending` is untouched. -/
def cursorsEffectCleanup (s : CursorsHookState) : CursorsHookState :=
  { s with wsReadyState := 2 }

/-- The throttle's pending timer firing within the hook: run the timer
callback against the current socket readyState, collect its sends. -/
def hookTimerFire (s : CursorsHookState) : CursorsHookState × List (Int × Int) :=
  let r := throttleTimerFire s.wsReadyState s.throttle
  ({ s with throttle := r.fst, timerPending := false }, r.snd)

/-- A session mid-burst: socket open, trailing sample (3, 4) recorded, the
window timer pending. -/
def midBurstSession : CursorsHookState := ⟨1, ⟨true, some (3, 4)⟩, true⟩

/-- C8 counterexample: running the unmount cleanup on a session whose
throttle timer is pending leaves the timer pending — the cleanup closes the
socket but cancels no timer, so "the pending timer is cancelled" fails. -/
theorem cleanupLeavesTimerPending :
    (cursorsEffectCleanup midBurstSession).timerPending = true := by
  decide

/-- C8 (amended): unmount cleanup closes the socket (readyState CLOSING) and
leaves `timerPending` exactly as it was — no timer is cancelled; when the
pending timer later fires on the torn-down session, the readyState guard in
the `sendCursor` body suppresses the send, so no cursor sample goes out
after teardown. -/
theorem cleanupClosesSocketOnly (s : CursorsHookState) :
    (cursorsEffectCleanup s).wsReadyState = 2 ∧
      (cursorsEffectCleanup s).timerPending = s.timerPending ∧
      (hookTimerFire (cursorsEffectCleanup s)).snd = [] := by
  refine ⟨rfl, rfl, ?_⟩
  show (throttleTimerFire 2 s.throttle).snd = []
  match h : s.throttle.lastArgs with
  | some a => simp [throttleTimerFire, h, sendIfOpen]
  | none => simp [throttleTimerFire, h]

/-! ## The Presence Broadcaster (src/unnamed/part_003, socket.io server)

Module state: `boardCursors` (boardId → userId → {x, y, user}) and
`userSockets` (userId → socket.id). Handlers: `register-user` records the
socket id for a user; `join-board` ensures the board's object exists and
writes an initial `{x: 0, y: 0, user}` sample under `user.id`;
`cursor-move` writes `{x, y, user}` under `user.id`; `disconnect` deletes
the first `userSockets` entry holding this socket's id and, when the
socket-local `currentBoard` / `currentUser` are set and the board object
exists, deletes that user's cursor entry. The server registers no
`setInterval` or `setTimeout`: nothing runs on mere time passage. -/

/-- The `user` object carried by join-board / cursor-move messages. -/
structure PUser where
  id : String
  name : String
deriving DecidableEq, Repr

/-- One entry of a board's cursor map: `{ x, y, user }`. -/
structure ServerCursor where
  x : Int
  y : Int
  user : PUser
deriving DecidableEq, Repr

/-- JS object assignment `obj[k] = v` on a string-keyed object: an existing
key is overwritten in place, a fresh key is appended at the end. -/
def upsert {α : Type} (m : List (String × α)) (k : String) (v : α) :
    List (String × α) :=
  if m.any fun p => p.fst == k then
    m.map fun p => if p.fst = k then (k, v) else p
  else
    m ++ [(k, v)]

/-- `if (!boardCursors[boardId]) boardCursors[boardId] = {}`: create the
board's (empty) cursor object only when the key is absent. -/
def ensureBoard (bc : List (String × List (String × ServerCursor))) (boardId : String) :
    List (String × List (String × ServerCursor)) :=
  if bc.any fun p => p.fst == boardId then bc else bc ++ [(boardId, [])]

/-- `boardCursors[boardId][user.id] = v` preceded by the ensure-exists guard. -/
def setCursor (bc : List (String × List (String × ServerCursor)))
    (boardId userId : String) (v : ServerCursor) :
    List (String × List (String × ServerCursor)) :=
  (ensureBoard bc boardId).map fun p =>
    if p.fst = boardId then (p.fst, upsert p.snd userId v) else p

/-- `delete boardCursors[currentBoard][currentUser.id]`, guarded by
`boardCursors[currentBoard]` existing; the board key itself is kept (JS
leaves the emptied object in place). -/
def removeCursor (bc : List (String × List (String × ServerCursor)))
    (boardId userId : String) : List (String × List (String × ServerCursor)) :=
  if bc.any fun p => p.fst == boardId then
    bc.map fun p =>
      if p.fst = boardId then (p.fst, p.snd.filter fun q => q.fst != userId) else p
  else
    bc

/-- The disconnect handler's `userSockets` sweep: iterate the entries,
delete the first one whose value is this socket's id, then break. -/
def removeFirstSocket : List (String × Nat) → Nat → List (String × Nat)
  | [], _ => []
  | p :: rest, sid => if p.snd = sid then rest else p :: removeFirstSocket rest sid

/-- The presence server's module-level mutable state. -/
structure ServerState where
  boardCursors : List (String × List (String × ServerCursor))
  userSockets : List (String × Nat)
deriving DecidableEq, Repr

/-- Server state at process start: both maps empty. -/
def serverStart : ServerState := ⟨[], []⟩

/-- One inbound socket.io event. The `disconnect` event carries the
socket-local `currentBoard` / `currentUser` variables of the disconnecting
connection (set by its last join-board, `none` before any join). -/
inductive ServerEvent where
  | registerUser (userId : String) (socketId : Nat)
  | joinBoard (boardId : String) (user : PUser)
  | cursorMove (boardId : String) (user : PUser) (x y : Int)
  | disconnect (socketId : Nat) (currentBoard : Option String) (currentUser : Option PUser)
deriving DecidableEq, Repr

/-- The event handlers of `io.on('connection')` (part_003 lines 20-61),
translated case by case. -/
def serverStep (s : ServerState) : ServerEvent → ServerState
  | .registerUser uid sid => { s with userSockets := upsert s.userSockets uid sid }
  | .joinBoard b u => { s with boardCursors := setCursor s.boardCursors b u.id ⟨0, 0, u⟩ }
  | .cursorMove b u x y => { s with boardCursors := setCursor s.boardCursors b u.id ⟨x, y, u⟩ }
  | .disconnect sid cb cu =>
    let us := removeFirstSocket s.userSockets sid
    match cb, cu with
    | some b, some u => ⟨removeCursor s.boardCursors b u.id, us⟩
    | some _, none => { s with userSockets := us }
    | none, _ => { s with userSockets := us }

/-- Time passing on the presence server. The server source registers no
timer of any kind (no `setInterval`, no `setTimeout`), so no handler runs
when `ms` milliseconds elapse with no inbound event: the state is unchanged
however much time passes. -/
def serverTick (s : ServerState) (_ms : Nat) : ServerState := s

/-- Whether the server's presence map holds an entry for `userId` on
`boardId`. -/
def presenceHas (s : ServerState) (boardId userId : String) : Bool :=
  s.boardCursors.any fun p => p.fst == boardId && p.snd.any fun q => q.fst == userId

/-- Whether an event is the one presence-removing event for `(boardId,
userId)`: a disconnect whose socket-local board and user match. -/
def removesPresence (e : ServerEvent) (boardId userId : String) : Bool :=
  match e with
  | .disconnect _ (some b) (some u) => b == boardId && u.id == userId
  | _ => false

/-- A sample user for concrete states. -/
def demoUser : PUser := ⟨"u1", "Alice"⟩

/-! ## The client cursors map (realtime-diagnostics.tsx lines 782-856)

`useRealtimeCursors` keeps a local map userId → cursor. Its `ws.onmessage`
upserts the entry for a foreign user's "cursor" message on the same board
and stamps `lastUpdate` with the current time; an interval running every
5000 ms rebuilds the map keeping only entries younger than 10000 ms. -/

/-- A decoded "cursor" wire message as read by `useRealtimeCursors`'s
`ws.onmessage`. -/
structure CursorWireMsg where
  type : String
  userId : String
  userName : String
  avatarUrl : Option String
  boardId : String
  x : Int
  y : Int
deriving DecidableEq, Repr

/-- One entry of the client's cursors map. -/
structure ClientCursor where
  x : Int
  y : Int
  userName : String
  avatarUrl : Option String
  lastUpdate : Int
deriving DecidableEq, Repr

/-- `useRealtimeCursors`'s `ws.onmessage` handler (lines 795-811): `none`
is a frame whose JSON.parse threw (swallowed by the `catch`); a decoded
"cursor" message for this board from another user upserts that user's
entry with `lastUpdate = Date.now()`; everything else leaves the map
unchanged. -/
def cursorsOnMessage (boardId userId : String) (now : Int)
    (frame : Option CursorWireMsg) (prev : List (String × ClientCursor)) :
    List (String × ClientCursor) :=
  match frame with
  | none => prev
  | some data =>
    if data.type = "cursor" ∧ data.boardId = boardId ∧ data.userId ≠ userId then
      upsert prev data.userId ⟨data.x, data.y, data.userName, data.avatarUrl, now⟩
    else
      prev

/-- The cleanup interval body (lines 823-837): keep exactly the entries
whose `lastUpdate` lies strictly less than 10000 ms in the past. -/
def cleanupCursors (now : Int) (prev : List (String × ClientCursor)) :
    List (String × ClientCursor) :=
  prev.filter fun p => now - p.snd.lastUpdate < 10000

/-- C5 counterexample: `demoUser` joins board "X" at time 0 and then one
full minute passes with no cursor-move and no disconnect. Because the
server registers no timer, no sweep runs and the server's presence entry
for ("X", "u1") is still there — refuting the claimed server-side
inactivity eviction. -/
theorem serverKeepsStaleEntry :
    presenceHas (serverTick (serverStep serverStart (.joinBoard "X" demoUser)) 60000)
      "X" "u1" = true := by
  decide

theorem any_key_upsert {α : Type} (m : List (String × α)) (k : String) (v : α)
    (uid : String) (h : (m.any fun q => q.fst == uid) = true) :
    ((upsert m k v).any fun q => q.fst == uid) = true := by
  unfold upsert
  split
  · simp only [List.any_map, List.any_eq_true, Function.comp] at h ⊢
    obtain ⟨q, hq, hquid⟩ := h
    refine ⟨q, hq, ?_⟩
    by_cases hk : q.fst = k
    · simp only [hk, if_pos rfl]
      rw [← hk]
      exact hquid
    · simp only [if_neg hk]
      exact hquid
  · rw [List.any_append, h, Bool.true_or]

theorem presence_any_setCursor (bc : List (String × List (String × ServerCursor)))
    (b' k : String) (v : ServerCursor) (b uid : String)
    (h : (bc.any fun p => p.fst == b && p.snd.any fun q => q.fst == uid) = true) :
    ((setCursor bc b' k v).any fun p =>
      p.fst == b && p.snd.any fun q => q.fst == uid) = true := by
  unfold setCursor
  simp only [List.any_map, List.any_eq_true, Function.comp] at *
  obtain ⟨p, hp, hcond⟩ := h
  have hp' : p ∈ ensureBoard bc b' := by
    unfold ensureBoard
    split
    · exact hp
    · exact List.mem_append_left _ hp
  rw [Bool.and_eq_true] at hcond
  obtain ⟨hb, hany⟩ := hcond
  refine ⟨p, hp', ?_⟩
  by_cases hfst : p.fst = b'
  · simp only [hfst, if_pos rfl, Bool.and_eq_true]
    exact ⟨by rw [← hfst]; exact hb, any_key_upsert p.snd k v uid hany⟩
  · simp only [if_neg hfst, Bool.and_eq_true]
    exact ⟨hb, hany⟩

theorem presence_any_removeCursor (bc : List (String × List (String × ServerCursor)))
    (b' uid' b uid : String)
    (h : (bc.any fun p => p.fst == b && p.snd.any fun q => q.fst == uid) = true)
    (hne : ¬(b' = b ∧ uid' = uid)) :
    ((removeCursor bc b' uid').any fun p =>
      p.fst == b && p.snd.any fun q => q.fst == uid) = true := by
  unfold removeCursor
  split
  · simp only [List.any_map, List.any_eq_true, Function.comp] at *
    obtain ⟨p, hp, hcond⟩ := h
    rw [Bool.and_eq_true] at hcond
    obtain ⟨hb, hany⟩ := hcond
    refine ⟨p, hp, ?_⟩
    by_cases hfst : p.fst = b'
    · have hbeq : p.fst = b := beq_iff_eq.mp hb
      have huid : uid' ≠ uid := by
        intro hu
        exact hne ⟨by rw [← hfst, hbeq], hu⟩
      simp only [hfst, if_pos rfl, Bool.and_eq_true]
      constructor
      · rw [← hfst]; exact hb
      · simp only [List.any_eq_true] at hany ⊢
        obtain ⟨q, hq, hquid⟩ := hany
        refine ⟨q, List.mem_filter.mpr ⟨hq, ?_⟩, hquid⟩
        rw [bne_iff_ne]
        rw [beq_iff_eq] at hquid
        rw [hquid]
        exact fun hc => huid hc.symm
    · simp only [if_neg hfst, Bool.and_eq_true]
      exact ⟨hb, hany⟩
  · exact h

/-- C5 (amended): the presence server has no inactivity sweep. A presence
entry survives every server event other than the disconnect of exactly that
(board, user) pair, and survives any passage of time (the server runs no
timer). The ~10 s inactivity cleanup lives client-side only: each client's
interval keeps exactly the locally displayed cursor entries whose
`lastUpdate` is strictly younger than 10000 ms, so a ghost cursor disappears
from clients' screens while the server-side entry can persist forever. -/
theorem presenceSweepIsClientSideOnly :
    (∀ (s : ServerState) (e : ServerEvent) (b uid : String),
        presenceHas s b uid = true → removesPresence e b uid = false →
        presenceHas (serverStep s e) b uid = true) ∧
    (∀ (s : ServerState) (ms : Nat) (b uid : String),
        presenceHas (serverTick s ms) b uid = presenceHas s b uid) ∧
    (∀ (now : Int) (prev : List (String × ClientCursor)) (uid : String) (c : ClientCursor),
        (uid, c) ∈ cleanupCursors now prev ↔ (uid, c) ∈ prev ∧ now - c.lastUpdate < 10000) := by
  refine ⟨?_, fun s ms b uid => rfl, ?_⟩
  · intro s e b uid h hrem
    match e with
    | .registerUser uid' sid => exact h
    | .joinBoard b' u =>
      exact presence_any_setCursor s.boardCursors b' u.id ⟨0, 0, u⟩ b uid h
    | .cursorMove b' u x y =>
      exact presence_any_setCursor s.boardCursors b' u.id ⟨x, y, u⟩ b uid h
    | .disconnect sid cb cu =>
      match cb, cu with
      | some b', some u' =>
        have hne : ¬(b' = b ∧ u'.id = uid) := by
          intro ⟨h1, h2⟩
          rw [removesPresence] at hrem
          rw [h1, h2] at hrem
          simp at hrem
        exact presence_any_removeCursor s.boardCursors b' u'.id b uid h hne
      | some _, none => exact h
      | none, some _ => exact h
      | none, none => exact h
  · intro now prev uid c
    rw [cleanupCursors, List.mem_filter]
    simp

/-- Witness for C5 (amended) at a concrete input: `demoUser`'s entry on
board "X" survives another user's cursor-move on the same board. -/
theorem presenceSweepIsClientSideOnly_witness :
    presenceHas (serverStep (serverStep serverStart (.joinBoard "X" demoUser))
      (.cursorMove "X" ⟨"u2", "Bob"⟩ 3 4)) "X" "u1" = true :=
  presenceSweepIsClientSideOnly.1 (serverStep serverStart (.joinBoard "X" demoUser))
    (.cursorMove "X" ⟨"u2", "Bob"⟩ 3 4) "X" "u1" (by decide) (by decide)

theorem upsert_keys_present {α : Type} (m : List (String × α)) (k : String) (v : α)
    (h : (m.any fun p => p.fst == k) = true) :
    (upsert m k v).map Prod.fst = m.map Prod.fst := by
  unfold upsert
  rw [if_pos h, List.map_map]
  refine List.map_congr_left ?_
  intro p _
  by_cases hpk : p.fst = k
  · simp [Function.comp, hpk]
  · simp [Function.comp, hpk]

theorem upsert_keys_absent {α : Type} (m : List (String × α)) (k : String) (v : α)
    (h : (m.any fun p => p.fst == k) = false) :
    (upsert m k v).map Prod.fst = m.map Prod.fst ++ [k] := by
  unfold upsert
  rw [if_neg (by rw [h]; exact Bool.false_ne_true), List.map_append]
  rfl

theorem upsert_keys_nodup {α : Type} (m : List (String × α)) (k : String) (v : α)
    (h : (m.map Prod.fst).Nodup) : ((upsert m k v).map Prod.fst).Nodup := by
  cases hany : (m.any fun p => p.fst == k) with
  | true => rw [upsert_keys_present m k v hany]; exact h
  | false =>
    rw [upsert_keys_absent m k v hany]
    have hk : k ∉ m.map Prod.fst := by
      intro hmem
      obtain ⟨p, hp, hpk⟩ := List.mem_map.mp hmem
      have := List.any_eq_false.mp hany p hp
      rw [hpk] at this
      simp at this
    simp [List.nodup_append, h, hk]

theorem mem_ensureBoard (bc : List (String × List (String × ServerCursor)))
    (boardId : String) (p : String × List (String × ServerCursor))
    (hp : p ∈ ensureBoard bc boardId) : p ∈ bc ∨ p = (boardId, []) := by
  unfold ensureBoard at hp
  split at hp
  · exact Or.inl hp
  · rcases List.mem_append.mp hp with h | h
    · exact Or.inl h
    · exact Or.inr (List.mem_singleton.mp h)

theorem ensureBoard_keys_nodup (bc : List (String × List (String × ServerCursor)))
    (boardId : String) (h : (bc.map Prod.fst).Nodup) :
    ((ensureBoard bc boardId).map Prod.fst).Nodup := by
  unfold ensureBoard
  split
  · exact h
  · next hany =>
    have hk : boardId ∉ bc.map Prod.fst := by
      intro hmem
      obtain ⟨p, hp, hpk⟩ := List.mem_map.mp hmem
      have := List.any_eq_false.mp (Bool.of_not_eq_true hany) p hp
      rw [hpk] at this
      simp at this
    simp [List.nodup_append, h, hk]

theorem setCursor_keys (bc : List (String × List (String × ServerCursor)))
    (boardId userId : String) (v : ServerCursor) :
    (setCursor bc boardId userId v).map Prod.fst = (ensureBoard bc boardId).map Prod.fst := by
  unfold setCursor
  rw [List.map_map]
  refine List.map_congr_left ?_
  intro p _
  by_cases hpb : p.fst = boardId
  · simp [Function.comp, hpb]
  · simp [Function.comp, hpb]

theorem removeCursor_keys (bc : List (String × List (String × ServerCursor)))
    (boardId userId : String) :
    (removeCursor bc boardId userId).map Prod.fst = bc.map Prod.fst := by
  unfold removeCursor
  split
  · rw [List.map_map]
    refine List.map_congr_left ?_
    intro p _
    by_cases hpb : p.fst = boardId
    · simp [Function.comp, hpb]
    · simp [Function.comp, hpb]
  · rfl

/-- The C7 invariant: the board map's keys carry no duplicates, and no
board's cursor map holds two entries for the same userId. -/
def presenceKeysNodup (s : ServerState) : Prop :=
  (s.boardCursors.map Prod.fst).Nodup ∧
    ∀ p ∈ s.boardCursors, (p.snd.map Prod.fst).Nodup

theorem serverStep_preserves_presenceKeysNodup (s : ServerState) (e : ServerEvent)
    (h : presenceKeysNodup s) : presenceKeysNodup (serverStep s e) := by
  obtain ⟨houter, hinner⟩ := h
  match e with
  | .registerUser uid sid => exact ⟨houter, hinner⟩
  | .joinBoard b u =>
    refine ⟨?_, ?_⟩
    · rw [serverStep, setCursor_keys]
      exact ensureBoard_keys_nodup s.boardCursors b houter
    · intro p hp
      rw [serverStep] at hp
      unfold setCursor at hp
      obtain ⟨q, hq, hqp⟩ := List.mem_map.mp hp
      rcases mem_ensureBoard s.boardCursors b q hq with hmem | hnew
      · subst hqp
        by_cases hqb : q.fst = b
        · simp only [if_pos hqb]
          exact upsert_keys_nodup q.snd u.id ⟨0, 0, u⟩ (hinner q hmem)
        · simp only [if_neg hqb]
          exact hinner q hmem
      · subst hqp hnew
        simp [upsert]
  | .cursorMove b u x y =>
    refine ⟨?_, ?_⟩
    · rw [serverStep, setCursor_keys]
      exact ensureBoard_keys_nodup s.boardCursors b houter
    · intro p hp
      rw [serverStep] at hp
      unfold setCursor at hp
      obtain ⟨q, hq, hqp⟩ := List.mem_map.mp hp
      rcases mem_ensureBoard s.boardCursors b q hq with hmem | hnew
      · subst hqp
        by_cases hqb : q.fst = b
        · simp only [if_pos hqb]
          exact upsert_keys_nodup q.snd u.id ⟨x, y, u⟩ (hinner q hmem)
        · simp only [if_neg hqb]
          exact hinner q hmem
      · subst hqp hnew
        simp [upsert]
  | .disconnect sid cb cu =>
    match cb, cu with
    | some b, some u =>
      refine ⟨?_, ?_⟩
      · rw [serverStep]
        show ((removeCursor s.boardCursors b u.id).map Prod.fst).Nodup
        rw [removeCursor_keys]
        exact houter
      · intro p hp
        rw [serverStep] at hp
        replace hp : p ∈ removeCursor s.boardCursors b u.id := hp
        unfold removeCursor at hp
        split at hp
        · obtain ⟨q, hq, hqp⟩ := List.mem_map.mp hp
          subst hqp
          by_cases hqb : q.fst = b
          · simp only [if_pos hqb]
            exact ((List.filter_sublist q.snd).map Prod.fst).nodup (hinner q hq)
          · simp only [if_neg hqb]
            exact hinner q hq
        · exact hinner p hp
    | some _, none => exact ⟨houter, hinner⟩
    | none, some _ => exact ⟨houter, hinner⟩
    | none, none => exact ⟨houter, hinner⟩

/-- C7: in every server state reachable by any sequence of register-user,
join-board, cursor-move and disconnect events from process start, the
presence map holds at most one entry per (boardId, userId); and the
join-board / cursor-move write (`upsert`) overwrites an existing userId key
in place — the board's key list is unchanged, nothing is appended. -/
theorem presenceAtMostOnePerUser :
    (∀ events : List ServerEvent,
        presenceKeysNodup (events.foldl serverStep serverStart)) ∧
    (∀ (m : List (String × ServerCursor)) (k : String) (v : ServerCursor),
        (m.any fun p => p.fst == k) = true →
        (upsert m k v).map Prod.fst = m.map Prod.fst) := by
  constructor
  · intro events
    have hstart : presenceKeysNodup serverStart := by
      constructor
      · exact List.nodup_nil
      · intro p hp
        cases hp
    have hgen : ∀ s, presenceKeysNodup s → presenceKeysNodup (events.foldl serverStep s) := by
      induction events with
      | nil => exact fun s hs => hs
      | cons e t ih =>
        intro s hs
        exact ih (serverStep s e) (serverStep_preserves_presenceKeysNodup s e hs)
    exact hgen serverStart hstart
  · exact fun m k v h => upsert_keys_present m k v h

/-- Witness for C7 at a concrete input: re-writing the existing key "u1"
leaves the key list `["u1"]` unchanged — the entry is overwritten, not
appended. -/
theorem presenceAtMostOnePerUser_witness :
    (upsert [("u1", (⟨0, 0, demoUser⟩ : ServerCursor))] "u1" ⟨3, 4, demoUser⟩).map Prod.fst
      = [("u1", (⟨0, 0, demoUser⟩ : ServerCursor))].map Prod.fst :=
  presenceAtMostOnePerUser.2 [("u1", ⟨0, 0, demoUser⟩)] "u1" ⟨3, 4, demoUser⟩ (by decide)

/-- C9: a wire frame whose payload fails JSON.parse (`frame = none`, the
handlers' `catch` path) is dropped silently everywhere: the relay handler
produces no sends (and, keeping no state, changes none), the board hook's
handler leaves the element collection unchanged, and the cursors hook's
handler leaves the cursor map unchanged. All three handlers are total
functions — the parse failure never escapes them. -/
theorem malformedFrameDroppedSilently :
    (∀ (clients : List RelayClient) (sender : Nat),
        relayIncoming clients sender none = []) ∧
    (∀ (boardId userId : String) (prev : List Element),
        boardOnMessage boardId userId none prev = prev) ∧
    (∀ (boardId userId : String) (now : Int) (prev : List (String × ClientCursor)),
        cursorsOnMessage boardId userId now none prev = prev) :=
  ⟨fun _ _ => rfl, fun _ _ _ => rfl, fun _ _ _ _ => rfl⟩
